import Mathlib

/-!
Shallow embedding of `src/apps/tts/train.py` (distributed training coordinator).

Machine reals (loss values) are modelled as exact rationals `ℚ`; the float
sentinel `float("inf")` used for `best_loss` is modelled as `⊤ : WithTop ℚ`.
Python integers are `Int` (or `Nat` where the source only ever produces
non-negative values).  Python's `%` and `//`, which raise `ZeroDivisionError`
on a zero divisor and otherwise floor towards the divisor's sign, are embedded
as `pymod` / `pyfloordiv` returning `Except`.

The collective operations are embedded in lockstep form: a training/validation
batch is given as the list of per-rank losses for that batch (every rank holds
the same number of batches, as guaranteed by `DistributedSampler`), so the
result of `dist.all_reduce(.., SUM)` on per-rank values is the list sum.
-/

namespace TTS

/-- Python exception outcomes reachable in the embedded fragment. -/
inductive PyErr where
  | zeroDivisionError
  | fileNotFoundError
deriving DecidableEq, Repr

/-- Python `a % b`: `ZeroDivisionError` on `b = 0`, otherwise floor-mod
(`Int.fmod`, whose result has the divisor's sign, exactly Python's `%`). -/
def pymod (a b : Int) : Except PyErr Int :=
  if b = 0 then .error .zeroDivisionError else .ok (Int.fmod a b)

/-- Python `a // b`: `ZeroDivisionError` on `b = 0`, otherwise floor division
(`Int.fdiv`, exactly Python's `//`). -/
def pyfloordiv (a b : Int) : Except PyErr Int :=
  if b = 0 then .error .zeroDivisionError else .ok (Int.fdiv a b)

/-- The `TrainingConfig` dataclass (source lines 21-46), with the source's default
field values.  Tensor-shape/IO fields that no modelled code path reads
(`data_dir`, pad ids, `num_workers`, `seed`, `backend`, device) are omitted;
`resume_checkpoint : Option String` stands for `Optional[Path]`. -/
structure TrainingConfig where
  epochs : Nat := 100
  batch_size : Nat := 8
  grad_accum_steps : Int := 1
  optimizer : String := "AdamW"
  lr_scheduler : String := "OneCycleLR"
  checkpoint_freq : Int := 1
  validation_freq : Int := 1
  resume_checkpoint : Option String := none
deriving DecidableEq, Repr

/-- The source's default configuration `TrainingConfig()`. -/
def defaultConfig : TrainingConfig := {}

/-- The `TrainerState` dataclass (source lines 49-53): `best_loss` starts at
`float("inf")`, modelled as `⊤`. -/
structure TrainerState where
  epoch : Nat := 0
  global_step : Nat := 0
  best_loss : WithTop ℚ := ⊤
deriving DecidableEq

/-- The state `TrainerState()` with the dataclass defaults. -/
def initState : TrainerState := {}

/-- The `CheckpointState` bundle (source lines 56-85).  The model/optimizer/scheduler
blobs are opaque snapshots outside the coordination core (spec section 1);
only the control-plane `trainer_state` is modelled. -/
structure CheckpointStateM where
  trainer_state : TrainerState
deriving DecidableEq

/-- Result type of `_create_optimizer` (source lines 107-113): it returns either a real `AdamW`
optimizer or — for any other kind tag — a `NotImplementedError` object
*returned as a value*, not raised. -/
inductive OptimizerResult where
  | adamW (lr : ℚ)
  | notImplementedErrorValue (msg : String)
deriving DecidableEq, Repr

/-- Result type of `_create_scheduler` (source lines 115-126): a real `OneCycleLR`
(carrying its `total_steps` argument) or a `NotImplementedError` object
returned as a value. -/
inductive SchedulerResult where
  | oneCycleLR (total_steps : Int)
  | notImplementedErrorValue (msg : String)
deriving DecidableEq, Repr

/-- Source `DistributedTTSTrainer._create_optimizer` (lines 107-113).  Note
the source's `else` branch *returns* the `NotImplementedError` instead of
raising it. -/
def create_optimizer (cfg : TrainingConfig) (lr : ℚ) : OptimizerResult :=
  if cfg.optimizer = "AdamW" then
    .adamW lr
  else
    .notImplementedErrorValue ("Optimizer: " ++ cfg.optimizer ++ " not implemented!")

/-- Source `DistributedTTSTrainer._create_scheduler` (lines 115-126).
`train_loader_len` is `len(self.train_loader)`.  `total_steps = epochs *
(len(train_loader) // grad_accum_steps)` uses Python `//`, which raises
`ZeroDivisionError` when `grad_accum_steps = 0`.  The unknown-kind branch
returns the `NotImplementedError` as a value. -/
def create_scheduler (cfg : TrainingConfig) (train_loader_len : Nat) :
    Except PyErr SchedulerResult :=
  if cfg.lr_scheduler = "OneCycleLR" then
    match pyfloordiv (train_loader_len : Int) cfg.grad_accum_steps with
    | .error e => .error e
    | .ok q => .ok (.oneCycleLR ((cfg.epochs : Int) * q))
  else
    .ok (.notImplementedErrorValue
      ("lr_scheduler:" ++ cfg.lr_scheduler ++ " not implemented!"))

/-- Zero-padded decimal rendering of a natural number, Python's `f"{n:04d}"`
for the non-negative values `state.epoch` takes. -/
def format04d (n : Nat) : String :=
  let s := toString n
  if s.length < 4 then String.mk (List.replicate (4 - s.length) '0') ++ s else s

/-- Filename of a periodic checkpoint, `f"checkpoint_{epoch:04d}.pt"`. -/
def periodicName (e : Nat) : String := "checkpoint_" ++ format04d e ++ ".pt"

/-- Source `DistributedTTSTrainer.save_checkpoint` (lines 167-182): on a
non-coordinating rank (`not self.is_main`) it returns immediately; on rank 0
it writes the bundle to `checkpoint_{epoch:04d}.pt` or `best.pt`.  The
embedding returns the written filename, `none` for the no-op. -/
def save_checkpoint (is_main : Bool) (s : TrainerState) (best : Bool) :
    Option String :=
  if !is_main then none
  else some (if best then "best.pt" else periodicName s.epoch)

/-- Source `DistributedTTSTrainer.load_checkpoint` (lines 184-198).  The rank
sets `self.state = checkpoint.trainer_state` from the bundle *it* loaded, then
calls `dist.broadcast_object_list([self.state.epoch, self.state.global_step],
src=0)`: the values received from rank 0 are written into that freshly built
temporary list, which is never read afterwards — so `received` (what rank 0
sent) has no effect on the resulting state. -/
def load_checkpoint (bundle : CheckpointStateM) (received : Nat × Nat) :
    TrainerState :=
  bundle.trainer_state

/-- Per-rank result of one `train_epoch` call: final state, the `avg_loss`
values logged on the coordinating rank, the 0-based batch indices at which an
optimizer step (and schedule tick and `global_step` increment) fired, and the
escaping exception if any. -/
structure EpochOut where
  state : TrainerState
  logs : List ℚ
  steps : List Nat
  err : Option PyErr
deriving DecidableEq

/-- Loop body of `train_epoch` (source lines 206-241).  `batches` holds, per
remaining batch, the per-rank losses of that batch; `tlAll` carries the
all-reduced value of the per-rank `total_loss` accumulators (the windows are
aligned across ranks, so the reduced sum is the running sum of per-batch
all-rank sums); `acc` is `accum_steps`.  A step fires when
`(batch_idx + 1) % grad_accum_steps == 0` (Python `%`: raises on a zero
window). -/
def train_epoch_go (is_main : Bool) (ws : Nat) (W : Int) :
    List (List ℚ) → Nat → ℚ → Nat → TrainerState → List ℚ → List Nat →
    EpochOut
  | [], _, _, _, s, logs, steps =>
      -- end of the batch loop: `self.state.epoch += 1` (source line 243)
      ⟨{ s with epoch := s.epoch + 1 }, logs, steps, none⟩
  | b :: rest, bidx, tlAll, acc, s, logs, steps =>
      let tlAll := tlAll + b.sum
      let acc := acc + 1
      match pymod ((bidx : Int) + 1) W with
      | .error e => ⟨s, logs, steps, some e⟩
      | .ok m =>
        if m = 0 then
          -- all_reduce for logging; clip; optimizer.step; zero_grad;
          -- scheduler.step; global_step += 1 (source lines 222-241)
          let logs := if is_main then logs ++ [tlAll / ((acc * ws : Nat) : ℚ)]
                      else logs
          train_epoch_go is_main ws W rest (bidx + 1) 0 0
            { s with global_step := s.global_step + 1 } logs (steps ++ [bidx])
        else
          train_epoch_go is_main ws W rest (bidx + 1) tlAll acc s logs steps

/-- Source `DistributedTTSTrainer.train_epoch` (lines 200-243). -/
def train_epoch (is_main : Bool) (ws : Nat) (W : Int)
    (batches : List (List ℚ)) (s : TrainerState) : EpochOut :=
  train_epoch_go is_main ws W batches 0 0 0 s [] []

/-- Result of one `validate` call: final state, the `"best.pt"` save if one
happened, and the computed `avg_loss` (`none` when the loader was empty and
the method returned immediately). -/
structure ValOut where
  state : TrainerState
  save : Option String
  avg_loss : Option ℚ
deriving DecidableEq

/-- Validation loop (source lines 254-266): per batch, all-reduce the batch
loss (sum over ranks) and add `reduced / world_size` to the running total. -/
def validate_go (ws : Nat) : List (List ℚ) → ℚ → ℚ
  | [], tl => tl
  | b :: rest, tl => validate_go ws rest (tl + b.sum / (ws : ℚ))

/-- Source `DistributedTTSTrainer.validate` (lines 245-274).  `if not
self.val_loader: return` tests the loader's length, so an empty validation
partition returns immediately.  `avg_loss` is computed on every rank; the
best comparison, `best_loss` update and `"best"` save run only under
`if self.is_main:`. -/
def validate (ws : Nat) (is_main : Bool) (batches : List (List ℚ))
    (s : TrainerState) : ValOut :=
  if batches.length = 0 then ⟨s, none, none⟩
  else
    let total_loss := validate_go ws batches 0
    let avg_loss := total_loss / (batches.length : ℚ)
    if is_main then
      if (avg_loss : WithTop ℚ) < s.best_loss then
        let s' := { s with best_loss := (avg_loss : WithTop ℚ) }
        ⟨s', save_checkpoint is_main s' true, some avg_loss⟩
      else ⟨s, none, some avg_loss⟩
    else ⟨s, none, some avg_loss⟩

/-- Outcome of the `train` driver loop: final state, the sequence of
checkpoint writes as `(is_best_tag, filename)` pairs in order, and the
escaping exception if any. -/
structure TrainOut where
  state : TrainerState
  events : List (Bool × String)
  err : Option PyErr
deriving DecidableEq

/-- The epoch loop of `train` (source lines 294-301): run an epoch; validate
when `(epoch + 1) % validation_freq == 0`; periodic-save when
`(epoch + 1) % checkpoint_freq == 0`.  `td`/`vd` give the per-epoch
training/validation batches (per batch, per-rank losses); `n` is the number
of loop iterations remaining, `epoch` the Python loop variable. -/
def train_loop (cfg : TrainingConfig) (ws : Nat) (is_main : Bool)
    (td : Nat → List (List ℚ)) (vd : Nat → List (List ℚ)) :
    Nat → Nat → TrainerState → List (Bool × String) → TrainOut
  | 0, _, s, evs => ⟨s, evs, none⟩
  | n + 1, epoch, s, evs =>
    let eo := train_epoch is_main ws cfg.grad_accum_steps (td epoch) s
    match eo.err with
    | some e => ⟨eo.state, evs, some e⟩
    | none =>
      let s := eo.state
      match pymod ((epoch : Int) + 1) cfg.validation_freq with
      | .error e => ⟨s, evs, some e⟩
      | .ok mv =>
        let vres := if mv = 0 then validate ws is_main (vd epoch) s
                    else ⟨s, none, none⟩
        let s := vres.state
        let evs := evs ++ (vres.save.map (fun f => (true, f))).toList
        match pymod ((epoch : Int) + 1) cfg.checkpoint_freq with
        | .error e => ⟨s, evs, some e⟩
        | .ok mc =>
          let evs := if mc = 0 then
              evs ++ ((save_checkpoint is_main s false).map
                (fun f => (false, f))).toList
            else evs
          train_loop cfg ws is_main td vd n (epoch + 1) s evs

/-- The `for epoch in range(start_epoch, config.epochs)` loop of `train`
(source lines 293-301), starting from trainer state `s0`
(`start_epoch = trainer.state.epoch`). -/
def train (cfg : TrainingConfig) (ws : Nat) (is_main : Bool)
    (td : Nat → List (List ℚ)) (vd : Nat → List (List ℚ))
    (s0 : TrainerState) : TrainOut :=
  train_loop cfg ws is_main td vd (cfg.epochs - s0.epoch) s0.epoch s0 []

/-- The trainer object after `DistributedTTSTrainer.__init__`
(source lines 88-105). -/
structure Trainer where
  config : TrainingConfig
  is_main : Bool
  optimizer : OptimizerResult
  scheduler : SchedulerResult
  state : TrainerState
deriving DecidableEq

/-- Source `DistributedTTSTrainer.__init__` (lines 88-105): store the config,
set `is_main = rank == 0`, build optimizer and dataloaders, build the
scheduler, set `state = TrainerState()`, then resume when
`config.resume_checkpoint` is set.  `train_loader_len` is
`len(self.train_loader)`; `resume_file` is the bundle found at the resume
path (`none` = file missing, so `torch.load` raises); `received` is the
broadcast payload from rank 0. -/
def mkTrainer (cfg : TrainingConfig) (rank ws : Nat) (lr : ℚ)
    (train_loader_len : Nat) (resume_file : Option CheckpointStateM)
    (received : Nat × Nat) : Except PyErr Trainer :=
  let opt := create_optimizer cfg lr
  match create_scheduler cfg train_loader_len with
  | .error e => .error e
  | .ok sch =>
    match cfg.resume_checkpoint with
    | none => .ok ⟨cfg, rank == 0, opt, sch, initState⟩
    | some _ =>
      match resume_file with
      | none => .error .fileNotFoundError
      | some bundle =>
        .ok ⟨cfg, rank == 0, opt, sch, load_checkpoint bundle received⟩

/-! ## Specification-side lists and values used to state the claims -/

/-- The 0-based batch indices in `[b, b + n)` at which an optimizer step
fires for window size `w` (the Python boundary `(batch_idx + 1) % w == 0`). -/
def boundarySteps (w : Nat) (b n : Nat) : List Nat :=
  (List.range' b n).filter (fun i => (i + 1) % w == 0)

/-- The mean validation loss as the spec words it: per batch the collective
(all-rank) sum divided by world size once, summed, divided by the batch
count. -/
def valAvg (ws : Nat) (batches : List (List ℚ)) : ℚ :=
  (batches.map (fun b => b.sum / (ws : ℚ))).sum / (batches.length : ℚ)

/-- The periodic-save events the spec prescribes for `n` epochs starting at
completed-epoch count `e`: one `checkpoint_<1-based epoch, 4 digits>.pt`
write after each completed epoch divisible by `freq`. -/
def periodicTags (freq : Nat) : Nat → Nat → List (Bool × String)
  | 0, _ => []
  | n + 1, e =>
    (if (e + 1) % freq = 0 then [(false, periodicName (e + 1))] else [])
      ++ periodicTags freq n (e + 1)

/-! ## Helper lemmas: the accumulation boundary and `train_epoch` -/

/-- For a positive window the Python boundary test `(batch_idx + 1) % W == 0`
is divisibility of `batch_idx + 1` by the window size. -/
lemma fmod_boundary {W : Int} (hW : 1 ≤ W) (bidx : Nat) :
    Int.fmod ((bidx : Int) + 1) W = 0 ↔ (bidx + 1) % W.toNat = 0 := by
  obtain ⟨w, rfl⟩ : ∃ w : Nat, W = (w : Int) :=
    ⟨W.toNat, (Int.toNat_of_nonneg (by omega)).symm⟩
  rw [Int.fmod_eq_emod _ (by omega), Int.toNat_natCast,
    show ((bidx : Int) + 1) = ((bidx + 1 : Nat) : Int) by push_cast; ring,
    ← Int.ofNat_emod]
  exact Int.natCast_eq_zero

/-- With a positive divisor `pymod` never raises. -/
lemma pymod_pos {W : Int} (hW : 1 ≤ W) (a : Int) :
    pymod a W = .ok (Int.fmod a W) := by
  simp [pymod, show W ≠ 0 by omega]

lemma boundarySteps_cons (w b n : Nat) :
    boundarySteps w b (n + 1) =
      (if (b + 1) % w = 0 then [b] else []) ++ boundarySteps w (b + 1) n := by
  simp only [boundarySteps, List.range'_succ, List.filter_cons]
  by_cases h : (b + 1) % w = 0 <;> simp [h]

lemma boundarySteps_concat (w n : Nat) :
    boundarySteps w 0 (n + 1) =
      boundarySteps w 0 n ++ (if (n + 1) % w = 0 then [n] else []) := by
  simp only [boundarySteps, List.range'_concat, List.filter_append]
  by_cases h : (n + 1) % w = 0 <;> simp [h]

/-- The number of accumulation boundaries among `n` batches is `n / w`. -/
lemma boundarySteps_zero_length {w : Nat} (hw : 1 ≤ w) (n : Nat) :
    (boundarySteps w 0 n).length = n / w := by
  induction n with
  | zero => simp [boundarySteps]
  | succ n ih =>
    rw [boundarySteps_concat, List.length_append, ih, Nat.succ_div]
    by_cases h : w ∣ n + 1
    · simp [h, Nat.mod_eq_zero_of_dvd h]
    · have h' : ¬ (n + 1) % w = 0 := fun hc => h (Nat.dvd_of_mod_eq_zero hc)
      simp [h, h']

/-- For a positive window the `train_epoch` loop never raises. -/
lemma train_epoch_go_err (im : Bool) (ws : Nat) {W : Int} (hW : 1 ≤ W) :
    ∀ (batches : List (List ℚ)) (bidx : Nat) (tlAll : ℚ) (acc : Nat)
      (s : TrainerState) (logs : List ℚ) (steps : List Nat),
      (train_epoch_go im ws W batches bidx tlAll acc s logs steps).err = none := by
  intro batches
  induction batches with
  | nil => intro bidx tlAll acc s logs steps; rfl
  | cons b rest ih =>
    intro bidx tlAll acc s logs steps
    simp only [train_epoch_go, pymod_pos hW]
    by_cases hf : Int.fmod ((bidx : Int) + 1) W = 0
    · rw [if_pos hf]; exact ih ..
    · rw [if_neg hf]; exact ih ..

/-- For a positive window the `train_epoch` loop's state transition:
`epoch + 1`, one `global_step` increment per accumulation boundary,
`best_loss` untouched. -/
lemma train_epoch_go_state (im : Bool) (ws : Nat) {W : Int} (hW : 1 ≤ W) :
    ∀ (batches : List (List ℚ)) (bidx : Nat) (tlAll : ℚ) (acc : Nat)
      (s : TrainerState) (logs : List ℚ) (steps : List Nat),
      (train_epoch_go im ws W batches bidx tlAll acc s logs steps).state =
        { epoch := s.epoch + 1,
          global_step :=
            s.global_step + (boundarySteps W.toNat bidx batches.length).length,
          best_loss := s.best_loss } := by
  intro batches
  induction batches with
  | nil =>
    intro bidx tlAll acc s logs steps
    simp [train_epoch_go, boundarySteps]
  | cons b rest ih =>
    intro bidx tlAll acc s logs steps
    simp only [train_epoch_go, pymod_pos hW]
    by_cases hb : (bidx + 1) % W.toNat = 0
    · have hf : Int.fmod ((bidx : Int) + 1) W = 0 := (fmod_boundary hW bidx).mpr hb
      rw [if_pos hf, ih, List.length_cons, boundarySteps_cons, if_pos hb,
        TrainerState.mk.injEq]
      refine ⟨rfl, ?_, rfl⟩
      simp only [List.length_append, List.length_singleton]
      omega
    · have hf : ¬ Int.fmod ((bidx : Int) + 1) W = 0 :=
        fun hc => hb ((fmod_boundary hW bidx).mp hc)
      rw [if_neg hf, ih]
      rw [List.length_cons, boundarySteps_cons, if_neg hb, List.nil_append]

/-- For a positive window the recorded optimizer-step positions are exactly
the accumulation boundaries. -/
lemma train_epoch_go_steps (im : Bool) (ws : Nat) {W : Int} (hW : 1 ≤ W) :
    ∀ (batches : List (List ℚ)) (bidx : Nat) (tlAll : ℚ) (acc : Nat)
      (s : TrainerState) (logs : List ℚ) (steps : List Nat),
      (train_epoch_go im ws W batches bidx tlAll acc s logs steps).steps =
        steps ++ boundarySteps W.toNat bidx batches.length := by
  intro batches
  induction batches with
  | nil =>
    intro bidx tlAll acc s logs steps
    simp [train_epoch_go, boundarySteps]
  | cons b rest ih =>
    intro bidx tlAll acc s logs steps
    simp only [train_epoch_go, pymod_pos hW]
    by_cases hb : (bidx + 1) % W.toNat = 0
    · have hf : Int.fmod ((bidx : Int) + 1) W = 0 := (fmod_boundary hW bidx).mpr hb
      rw [if_pos hf, ih]
      rw [List.length_cons, boundarySteps_cons, if_pos hb]
      simp
    · have hf : ¬ Int.fmod ((bidx : Int) + 1) W = 0 :=
        fun hc => hb ((fmod_boundary hW bidx).mp hc)
      rw [if_neg hf, ih]
      rw [List.length_cons, boundarySteps_cons, if_neg hb, List.nil_append]

/-- Spec of `train_epoch` at the top level (positive window): state transition
and the exact step positions. -/
lemma train_epoch_spec (im : Bool) (ws : Nat) {W : Int} (hW : 1 ≤ W)
    (batches : List (List ℚ)) (s : TrainerState) :
    (train_epoch im ws W batches s).state =
      { epoch := s.epoch + 1,
        global_step := s.global_step + batches.length / W.toNat,
        best_loss := s.best_loss } ∧
    (train_epoch im ws W batches s).steps =
      (List.range batches.length).filter (fun i => (i + 1) % W.toNat == 0) ∧
    (train_epoch im ws W batches s).err = none := by
  have hw : 1 ≤ W.toNat := by omega
  refine ⟨?_, ?_, train_epoch_go_err im ws hW ..⟩
  · rw [train_epoch, train_epoch_go_state im ws hW, boundarySteps_zero_length hw]
  · rw [train_epoch, train_epoch_go_steps im ws hW]
    simp [boundarySteps, List.range_eq_range']

/-- Whenever the `train_epoch` loop finishes without raising (any window
value), `epoch` has been incremented exactly once. -/
lemma train_epoch_go_epoch_of_ok (im : Bool) (ws : Nat) (W : Int) :
    ∀ (batches : List (List ℚ)) (bidx : Nat) (tlAll : ℚ) (acc : Nat)
      (s : TrainerState) (logs : List ℚ) (steps : List Nat),
      (train_epoch_go im ws W batches bidx tlAll acc s logs steps).err = none →
      (train_epoch_go im ws W batches bidx tlAll acc s logs steps).state.epoch =
        s.epoch + 1 := by
  intro batches
  induction batches with
  | nil => intro bidx tlAll acc s logs steps _; rfl
  | cons b rest ih =>
    intro bidx tlAll acc s logs steps h
    by_cases hz : W = 0
    · simp [train_epoch_go, pymod, hz] at h
    · rw [train_epoch_go, pymod, if_neg hz] at h ⊢
      by_cases hf : Int.fmod ((bidx : Int) + 1) W = 0
      · simp only [if_pos hf] at h ⊢; exact ih _ _ _ _ _ _ h
      · simp only [if_neg hf] at h ⊢; exact ih _ _ _ _ _ _ h

/-- The `train_epoch` loop never decreases `epoch`, raise or no raise. -/
lemma train_epoch_go_epoch_mono (im : Bool) (ws : Nat) (W : Int) :
    ∀ (batches : List (List ℚ)) (bidx : Nat) (tlAll : ℚ) (acc : Nat)
      (s : TrainerState) (logs : List ℚ) (steps : List Nat),
      s.epoch ≤
        (train_epoch_go im ws W batches bidx tlAll acc s logs steps).state.epoch := by
  intro batches
  induction batches with
  | nil => intro bidx tlAll acc s logs steps; simp [train_epoch_go]
  | cons b rest ih =>
    intro bidx tlAll acc s logs steps
    by_cases hz : W = 0
    · simp [train_epoch_go, pymod, hz]
    · rw [train_epoch_go, pymod, if_neg hz]
      by_cases hf : Int.fmod ((bidx : Int) + 1) W = 0
      · simp only [if_pos hf]
        exact ih (bidx + 1) 0 0 { s with global_step := s.global_step + 1 } _ _
      · simp only [if_neg hf]
        exact ih (bidx + 1) (tlAll + b.sum) (acc + 1) s _ _

/-- The `train_epoch` loop never touches `best_loss`. -/
lemma train_epoch_go_best (im : Bool) (ws : Nat) (W : Int) :
    ∀ (batches : List (List ℚ)) (bidx : Nat) (tlAll : ℚ) (acc : Nat)
      (s : TrainerState) (logs : List ℚ) (steps : List Nat),
      (train_epoch_go im ws W batches bidx tlAll acc s logs steps).state.best_loss =
        s.best_loss := by
  intro batches
  induction batches with
  | nil => intro bidx tlAll acc s logs steps; rfl
  | cons b rest ih =>
    intro bidx tlAll acc s logs steps
    by_cases hz : W = 0
    · simp [train_epoch_go, pymod, hz]
    · rw [train_epoch_go, pymod, if_neg hz]
      by_cases hf : Int.fmod ((bidx : Int) + 1) W = 0
      · simp only [if_pos hf]; exact ih ..
      · simp only [if_neg hf]; exact ih ..

/-- The rank only influences the logging output of the epoch loop: state,
step positions and exception behaviour are identical on every rank. -/
lemma train_epoch_go_rank_indep (im₁ im₂ : Bool) (ws : Nat) (W : Int) :
    ∀ (batches : List (List ℚ)) (bidx : Nat) (tlAll : ℚ) (acc : Nat)
      (s : TrainerState) (logs₁ logs₂ : List ℚ) (steps : List Nat),
      (train_epoch_go im₁ ws W batches bidx tlAll acc s logs₁ steps).state =
        (train_epoch_go im₂ ws W batches bidx tlAll acc s logs₂ steps).state ∧
      (train_epoch_go im₁ ws W batches bidx tlAll acc s logs₁ steps).steps =
        (train_epoch_go im₂ ws W batches bidx tlAll acc s logs₂ steps).steps ∧
      (train_epoch_go im₁ ws W batches bidx tlAll acc s logs₁ steps).err =
        (train_epoch_go im₂ ws W batches bidx tlAll acc s logs₂ steps).err := by
  intro batches
  induction batches with
  | nil => intro bidx tlAll acc s logs₁ logs₂ steps; exact ⟨rfl, rfl, rfl⟩
  | cons b rest ih =>
    intro bidx tlAll acc s logs₁ logs₂ steps
    by_cases hz : W = 0
    · simp [train_epoch_go, pymod, hz]
    · rw [train_epoch_go, train_epoch_go, pymod, if_neg hz]
      by_cases hf : Int.fmod ((bidx : Int) + 1) W = 0
      · simp only [if_pos hf]; exact ih ..
      · simp only [if_neg hf]; exact ih ..

/-! ## Helper lemmas: `validate` -/

lemma validate_go_eq (ws : Nat) :
    ∀ (batches : List (List ℚ)) (t : ℚ),
      validate_go ws batches t = t + (batches.map (fun b => b.sum / (ws : ℚ))).sum := by
  intro batches
  induction batches with
  | nil => intro t; simp [validate_go]
  | cons b rest ih =>
    intro t
    rw [validate_go, ih]
    simp only [List.map_cons, List.sum_cons]
    ring

/-- Closed form of `validate` on a non-empty partition. -/
lemma validate_eq_of_ne_nil (ws : Nat) (im : Bool) {batches : List (List ℚ)}
    (h : batches ≠ []) (s : TrainerState) :
    validate ws im batches s =
      if im then
        if ((valAvg ws batches : ℚ) : WithTop ℚ) < s.best_loss then
          ⟨{ s with best_loss := ((valAvg ws batches : ℚ) : WithTop ℚ) },
            some "best.pt", some (valAvg ws batches)⟩
        else ⟨s, none, some (valAvg ws batches)⟩
      else ⟨s, none, some (valAvg ws batches)⟩ := by
  have hl : ¬ batches.length = 0 := by simpa [List.length_eq_zero] using h
  have hgo : validate_go ws batches 0 =
      (batches.map (fun b => b.sum / (ws : ℚ))).sum := by
    rw [validate_go_eq]; ring
  rw [validate, if_neg hl]
  cases im <;> simp [hgo, valAvg, save_checkpoint]

lemma validate_state_empty (ws : Nat) (im : Bool) (s : TrainerState) :
    validate ws im [] s = ⟨s, none, none⟩ := rfl

/-- Validation leaves `epoch` and `global_step` unchanged and can only ever
change `best_loss`. -/
lemma validate_frame (ws : Nat) (im : Bool) (batches : List (List ℚ))
    (s : TrainerState) :
    (validate ws im batches s).state =
      { s with best_loss := (validate ws im batches s).state.best_loss } := by
  by_cases h : batches = []
  · subst h; rfl
  · rw [validate_eq_of_ne_nil ws im h s]
    cases im
    · rfl
    · by_cases hlt : ((valAvg ws batches : ℚ) : WithTop ℚ) < s.best_loss
      · simp [hlt]
      · simp [hlt]

/-- On a non-coordinating rank `validate` neither changes state nor saves. -/
lemma validate_nonmain (ws : Nat) (batches : List (List ℚ)) (s : TrainerState) :
    (validate ws false batches s).state = s ∧
      (validate ws false batches s).save = none := by
  by_cases h : batches = []
  · subst h; exact ⟨rfl, rfl⟩
  · rw [validate_eq_of_ne_nil ws false h s]
    simp

/-- Validation never increases `best_loss`. -/
lemma validate_best_mono (ws : Nat) (im : Bool) (batches : List (List ℚ))
    (s : TrainerState) :
    (validate ws im batches s).state.best_loss ≤ s.best_loss := by
  by_cases h : batches = []
  · subst h; exact le_refl _
  · rw [validate_eq_of_ne_nil ws im h s]
    cases im
    · simp
    · by_cases hlt : ((valAvg ws batches : ℚ) : WithTop ℚ) < s.best_loss
      · simpa [hlt] using le_of_lt hlt
      · simp [hlt]

/-- On the coordinating rank, `best_loss` strictly decreases across a
non-empty validation pass exactly when the mean validation loss beats it. -/
lemma validate_best_update (ws : Nat) {batches : List (List ℚ)}
    (h : batches ≠ []) (s : TrainerState) :
    ((validate ws true batches s).state.best_loss < s.best_loss ↔
      ((valAvg ws batches : ℚ) : WithTop ℚ) < s.best_loss) := by
  rw [validate_eq_of_ne_nil ws true h s]
  by_cases hlt : ((valAvg ws batches : ℚ) : WithTop ℚ) < s.best_loss
  · simpa [hlt] using hlt
  · simp [hlt]

/-- A `"best.pt"` save happens exactly on a strict improvement of a
non-empty validation pass on the coordinating rank. -/
lemma validate_save_iff (ws : Nat) (batches : List (List ℚ)) (s : TrainerState) :
    ((validate ws true batches s).save = some "best.pt" ↔
      batches ≠ [] ∧ ((valAvg ws batches : ℚ) : WithTop ℚ) < s.best_loss) := by
  by_cases h : batches = []
  · subst h
    simp [validate_state_empty]
  · rw [validate_eq_of_ne_nil ws true h s]
    by_cases hlt : ((valAvg ws batches : ℚ) : WithTop ℚ) < s.best_loss
    · simp [hlt, h]
    · simp [hlt]

/-! ## Helper lemmas: one iteration of the `train` epoch loop -/

lemma train_loop_succ_err1 (cfg : TrainingConfig) (ws : Nat) (im : Bool)
    (td vd : Nat → List (List ℚ)) (n epoch : Nat) (s : TrainerState)
    (evs : List (Bool × String)) {er : PyErr}
    (he : (train_epoch im ws cfg.grad_accum_steps (td epoch) s).err = some er) :
    train_loop cfg ws im td vd (n + 1) epoch s evs =
      ⟨(train_epoch im ws cfg.grad_accum_steps (td epoch) s).state, evs, some er⟩ := by
  simp only [train_loop, he]

lemma train_loop_succ_err2 (cfg : TrainingConfig) (ws : Nat) (im : Bool)
    (td vd : Nat → List (List ℚ)) (n epoch : Nat) (s : TrainerState)
    (evs : List (Bool × String)) {er : PyErr}
    (he : (train_epoch im ws cfg.grad_accum_steps (td epoch) s).err = none)
    (hv : pymod ((epoch : Int) + 1) cfg.validation_freq = .error er) :
    train_loop cfg ws im td vd (n + 1) epoch s evs =
      ⟨(train_epoch im ws cfg.grad_accum_steps (td epoch) s).state, evs, some er⟩ := by
  simp only [train_loop, he, hv]

lemma train_loop_succ_err3 (cfg : TrainingConfig) (ws : Nat) (im : Bool)
    (td vd : Nat → List (List ℚ)) (n epoch : Nat) (s : TrainerState)
    (evs : List (Bool × String)) {er : PyErr} {mv : Int}
    (he : (train_epoch im ws cfg.grad_accum_steps (td epoch) s).err = none)
    (hv : pymod ((epoch : Int) + 1) cfg.validation_freq = .ok mv)
    (hc : pymod ((epoch : Int) + 1) cfg.checkpoint_freq = .error er) :
    train_loop cfg ws im td vd (n + 1) epoch s evs =
      ⟨(if mv = 0 then
          validate ws im (vd epoch)
            (train_epoch im ws cfg.grad_accum_steps (td epoch) s).state
        else ⟨(train_epoch im ws cfg.grad_accum_steps (td epoch) s).state,
          none, none⟩).state,
        evs ++ (((if mv = 0 then
            validate ws im (vd epoch)
              (train_epoch im ws cfg.grad_accum_steps (td epoch) s).state
          else ⟨(train_epoch im ws cfg.grad_accum_steps (td epoch) s).state,
            none, none⟩).save).map (fun f => (true, f))).toList,
        some er⟩ := by
  simp only [train_loop, he, hv, hc]

lemma train_loop_succ_ok (cfg : TrainingConfig) (ws : Nat) (im : Bool)
    (td vd : Nat → List (List ℚ)) (n epoch : Nat) (s : TrainerState)
    (evs : List (Bool × String)) {mv mc : Int}
    (he : (train_epoch im ws cfg.grad_accum_steps (td epoch) s).err = none)
    (hv : pymod ((epoch : Int) + 1) cfg.validation_freq = .ok mv)
    (hc : pymod ((epoch : Int) + 1) cfg.checkpoint_freq = .ok mc) :
    train_loop cfg ws im td vd (n + 1) epoch s evs =
      train_loop cfg ws im td vd n (epoch + 1)
        (if mv = 0 then
          validate ws im (vd epoch)
            (train_epoch im ws cfg.grad_accum_steps (td epoch) s).state
        else ⟨(train_epoch im ws cfg.grad_accum_steps (td epoch) s).state,
          none, none⟩).state
        ((evs ++ (((if mv = 0 then
            validate ws im (vd epoch)
              (train_epoch im ws cfg.grad_accum_steps (td epoch) s).state
          else ⟨(train_epoch im ws cfg.grad_accum_steps (td epoch) s).state,
            none, none⟩).save).map (fun f => (true, f))).toList) ++
          (if mc = 0 then
            ((save_checkpoint im
              (if mv = 0 then
                validate ws im (vd epoch)
                  (train_epoch im ws cfg.grad_accum_steps (td epoch) s).state
              else ⟨(train_epoch im ws cfg.grad_accum_steps (td epoch) s).state,
                none, none⟩).state false).map (fun f => (false, f))).toList
          else [])) := by
  simp only [train_loop, he, hv, hc]
  by_cases hmc : mc = 0 <;> simp [hmc]

/-! ## Helper lemmas: whole-run properties of the `train` epoch loop -/

lemma validate_gs (ws : Nat) (im : Bool) (batches : List (List ℚ))
    (s : TrainerState) :
    (validate ws im batches s).state.global_step = s.global_step := by
  rw [validate_frame]

lemma validate_epoch (ws : Nat) (im : Bool) (batches : List (List ℚ))
    (s : TrainerState) :
    (validate ws im batches s).state.epoch = s.epoch := by
  rw [validate_frame]

lemma best_events_filtered (o : Option String) :
    ((o.map (fun f => (true, f))).toList.filter (fun ev => !ev.1)) = [] := by
  cases o <;> simp

/-- Epoch/`global_step` transition of the post-epoch validation stage. -/
lemma stage_state_epoch (ws : Nat) (im : Bool) (vb : List (List ℚ))
    (s₁ : TrainerState) (mv : Int) :
    ((if mv = 0 then validate ws im vb s₁
      else ⟨s₁, none, none⟩) : ValOut).state.epoch = s₁.epoch := by
  by_cases hmv : mv = 0 <;> simp [hmv, validate_epoch]

lemma stage_state_gs (ws : Nat) (im : Bool) (vb : List (List ℚ))
    (s₁ : TrainerState) (mv : Int) :
    ((if mv = 0 then validate ws im vb s₁
      else ⟨s₁, none, none⟩) : ValOut).state.global_step = s₁.global_step := by
  by_cases hmv : mv = 0 <;> simp [hmv, validate_gs]

lemma stage_state_best_mono (ws : Nat) (im : Bool) (vb : List (List ℚ))
    (s₁ : TrainerState) (mv : Int) :
    ((if mv = 0 then validate ws im vb s₁
      else ⟨s₁, none, none⟩) : ValOut).state.best_loss ≤ s₁.best_loss := by
  by_cases hmv : mv = 0 <;> simp [hmv, validate_best_mono]

/-- On non-coordinating ranks the whole epoch loop writes nothing: every
save is a no-op, so the event trace stays empty. -/
lemma train_loop_events_nonmain (cfg : TrainingConfig) (ws : Nat)
    (td vd : Nat → List (List ℚ)) :
    ∀ (n e : Nat) (s : TrainerState) (evs : List (Bool × String)),
      (train_loop cfg ws false td vd n e s evs).events = evs := by
  intro n
  induction n with
  | zero => intro e s evs; rfl
  | succ n ih =>
    intro e s evs
    have hsave : ∀ (vb : List (List ℚ)) (s₁ : TrainerState) (mv : Int),
        ((if mv = 0 then validate ws false vb s₁
          else ⟨s₁, none, none⟩) : ValOut).save = none := by
      intro vb s₁ mv
      by_cases hmv : mv = 0 <;> simp [hmv, (validate_nonmain ws vb s₁).2]
    cases he : (train_epoch false ws cfg.grad_accum_steps (td e) s).err with
    | some er => rw [train_loop_succ_err1 cfg ws false td vd n e s evs he]
    | none =>
      cases hv : pymod ((e : Int) + 1) cfg.validation_freq with
      | error er => rw [train_loop_succ_err2 cfg ws false td vd n e s evs he hv]
      | ok mv =>
        cases hc : pymod ((e : Int) + 1) cfg.checkpoint_freq with
        | error er =>
          rw [train_loop_succ_err3 cfg ws false td vd n e s evs he hv hc]
          simp [hsave]
        | ok mc =>
          rw [train_loop_succ_ok cfg ws false td vd n e s evs he hv hc, ih]
          by_cases hmc : mc = 0 <;> simp [hmc, hsave, save_checkpoint]

/-- Over any run of the epoch loop `best_loss` never increases. -/
lemma train_loop_best_mono (cfg : TrainingConfig) (ws : Nat) (im : Bool)
    (td vd : Nat → List (List ℚ)) :
    ∀ (n e : Nat) (s : TrainerState) (evs : List (Bool × String)),
      (train_loop cfg ws im td vd n e s evs).state.best_loss ≤ s.best_loss := by
  intro n
  induction n with
  | zero => intro e s evs; exact le_refl _
  | succ n ih =>
    intro e s evs
    have hb1 : (train_epoch im ws cfg.grad_accum_steps (td e) s).state.best_loss =
        s.best_loss := train_epoch_go_best im ws cfg.grad_accum_steps (td e) 0 0 0 s [] []
    cases he : (train_epoch im ws cfg.grad_accum_steps (td e) s).err with
    | some er =>
      rw [train_loop_succ_err1 cfg ws im td vd n e s evs he]
      exact le_of_eq hb1
    | none =>
      cases hv : pymod ((e : Int) + 1) cfg.validation_freq with
      | error er =>
        rw [train_loop_succ_err2 cfg ws im td vd n e s evs he hv]
        exact le_of_eq hb1
      | ok mv =>
        cases hc : pymod ((e : Int) + 1) cfg.checkpoint_freq with
        | error er =>
          rw [train_loop_succ_err3 cfg ws im td vd n e s evs he hv hc]
          exact le_trans (stage_state_best_mono ws im (vd e) _ mv) (le_of_eq hb1)
        | ok mc =>
          rw [train_loop_succ_ok cfg ws im td vd n e s evs he hv hc]
          refine le_trans (ih (e + 1) _ _) ?_
          exact le_trans (stage_state_best_mono ws im (vd e) _ mv) (le_of_eq hb1)

/-- Over any run of the epoch loop `epoch` never decreases. -/
lemma train_loop_epoch_mono (cfg : TrainingConfig) (ws : Nat) (im : Bool)
    (td vd : Nat → List (List ℚ)) :
    ∀ (n e : Nat) (s : TrainerState) (evs : List (Bool × String)),
      s.epoch ≤ (train_loop cfg ws im td vd n e s evs).state.epoch := by
  intro n
  induction n with
  | zero => intro e s evs; exact le_refl _
  | succ n ih =>
    intro e s evs
    have hm1 : s.epoch ≤ (train_epoch im ws cfg.grad_accum_steps (td e) s).state.epoch :=
      train_epoch_go_epoch_mono im ws cfg.grad_accum_steps (td e) 0 0 0 s [] []
    cases he : (train_epoch im ws cfg.grad_accum_steps (td e) s).err with
    | some er => rw [train_loop_succ_err1 cfg ws im td vd n e s evs he]; exact hm1
    | none =>
      cases hv : pymod ((e : Int) + 1) cfg.validation_freq with
      | error er =>
        rw [train_loop_succ_err2 cfg ws im td vd n e s evs he hv]; exact hm1
      | ok mv =>
        cases hc : pymod ((e : Int) + 1) cfg.checkpoint_freq with
        | error er =>
          rw [train_loop_succ_err3 cfg ws im td vd n e s evs he hv hc]
          rw [stage_state_epoch ws im (vd e) _ mv]
          exact hm1
        | ok mc =>
          rw [train_loop_succ_ok cfg ws im td vd n e s evs he hv hc]
          refine le_trans ?_ (ih ..)
          rw [stage_state_epoch ws im (vd e) _ mv]
          exact hm1

/-- Step-count bookkeeping over a completed run: each of the `n` epochs with
`B` batches and positive window `W` adds `B / W` optimizer steps. -/
lemma train_loop_gs (cfg : TrainingConfig) (ws : Nat) (im : Bool)
    (td vd : Nat → List (List ℚ)) (B : Nat)
    (hW : 1 ≤ cfg.grad_accum_steps) (hB : ∀ e, (td e).length = B) :
    ∀ (n e : Nat) (s : TrainerState) (evs : List (Bool × String)),
      (train_loop cfg ws im td vd n e s evs).err = none →
      (train_loop cfg ws im td vd n e s evs).state.global_step =
        s.global_step + n * (B / cfg.grad_accum_steps.toNat) := by
  intro n
  induction n with
  | zero => intro e s evs _; simp [train_loop]
  | succ n ih =>
    intro e s evs h
    obtain ⟨hst, _, he⟩ := train_epoch_spec im ws hW (td e) s
    cases hv : pymod ((e : Int) + 1) cfg.validation_freq with
    | error er =>
      rw [train_loop_succ_err2 cfg ws im td vd n e s evs he hv] at h
      simp at h
    | ok mv =>
      cases hc : pymod ((e : Int) + 1) cfg.checkpoint_freq with
      | error er =>
        rw [train_loop_succ_err3 cfg ws im td vd n e s evs he hv hc] at h
        simp at h
      | ok mc =>
        rw [train_loop_succ_ok cfg ws im td vd n e s evs he hv hc] at h ⊢
        rw [ih _ _ _ h, stage_state_gs ws im (vd e) _ mv, hst, hB e]
        simp only [Nat.succ_mul]
        omega

/-- Periodic-save bookkeeping over a completed coordinating-rank run with a
positive checkpoint cadence: filtering out `"best"`-tag saves leaves exactly
the prescribed periodic writes. -/
lemma train_loop_periodic (cfg : TrainingConfig) (ws : Nat)
    (td vd : Nat → List (List ℚ)) (hcf : 1 ≤ cfg.checkpoint_freq) :
    ∀ (n e : Nat) (s : TrainerState) (evs : List (Bool × String)),
      s.epoch = e →
      (train_loop cfg ws true td vd n e s evs).err = none →
      (train_loop cfg ws true td vd n e s evs).events.filter (fun ev => !ev.1) =
        evs.filter (fun ev => !ev.1) ++
          periodicTags cfg.checkpoint_freq.toNat n e := by
  intro n
  induction n with
  | zero => intro e s evs _ _; simp [train_loop, periodicTags]
  | succ n ih =>
    intro e s evs hse h
    cases he : (train_epoch true ws cfg.grad_accum_steps (td e) s).err with
    | some er =>
      rw [train_loop_succ_err1 cfg ws true td vd n e s evs he] at h
      simp at h
    | none =>
      have he1 : (train_epoch true ws cfg.grad_accum_steps (td e) s).state.epoch =
          e + 1 :=
        (train_epoch_go_epoch_of_ok true ws cfg.grad_accum_steps (td e)
          0 0 0 s [] [] he).trans (by rw [hse])
      cases hv : pymod ((e : Int) + 1) cfg.validation_freq with
      | error er =>
        rw [train_loop_succ_err2 cfg ws true td vd n e s evs he hv] at h
        simp at h
      | ok mv =>
        have hc : pymod ((e : Int) + 1) cfg.checkpoint_freq =
            .ok (Int.fmod ((e : Int) + 1) cfg.checkpoint_freq) := pymod_pos hcf _
        rw [train_loop_succ_ok cfg ws true td vd n e s evs he hv hc] at h ⊢
        have hse' :
            ((if mv = 0 then validate ws true (vd e)
                (train_epoch true ws cfg.grad_accum_steps (td e) s).state
              else ⟨(train_epoch true ws cfg.grad_accum_steps (td e) s).state,
                none, none⟩) : ValOut).state.epoch = e + 1 := by
          rw [stage_state_epoch ws true (vd e) _ mv, he1]
        rw [ih _ _ _ hse' h, List.filter_append, List.filter_append,
          best_events_filtered]
        rw [periodicTags]
        by_cases hb : (e + 1) % cfg.checkpoint_freq.toNat = 0
        · have hf : Int.fmod ((e : Int) + 1) cfg.checkpoint_freq = 0 :=
            (fmod_boundary hcf e).mpr hb
          rw [if_pos hb, if_pos hf]
          simp [save_checkpoint, hse']
        · have hf : ¬ Int.fmod ((e : Int) + 1) cfg.checkpoint_freq = 0 :=
            fun hcm => hb ((fmod_boundary hcf e).mp hcm)
          rw [if_neg hb, if_neg hf]
          simp

/-! ## Claim theorems -/

/-- C1: Step-count invariant.  A completed run of `E = epochs - start_epoch`
epochs whose rank-local data source yields `B` batches per epoch with
accumulation window `W ≥ 1` ends with `global_step` equal to its initial
value plus `E * (B / W)` (floor division); within an epoch an optimizer step
(with its schedule tick and `global_step` increment) fires exactly at the
micro-batch indices `i` with `(i + 1) % W == 0`, so a trailing partial
window never triggers a step; and a zero-batch epoch contributes zero
steps. -/
theorem step_count_invariant (cfg : TrainingConfig) (ws : Nat) (im : Bool)
    (td vd : Nat → List (List ℚ)) (s0 : TrainerState) (B : Nat)
    (hW : 1 ≤ cfg.grad_accum_steps) (hB : ∀ e, (td e).length = B)
    (hok : (train cfg ws im td vd s0).err = none) :
    (train cfg ws im td vd s0).state.global_step =
      s0.global_step +
        (cfg.epochs - s0.epoch) * (B / cfg.grad_accum_steps.toNat) ∧
    (∀ (batches : List (List ℚ)) (s : TrainerState),
      (train_epoch im ws cfg.grad_accum_steps batches s).steps =
        (List.range batches.length).filter
          (fun i => (i + 1) % cfg.grad_accum_steps.toNat == 0)) ∧
    (∀ s : TrainerState,
      (train_epoch im ws cfg.grad_accum_steps [] s).state.global_step =
        s.global_step) := by
  refine ⟨train_loop_gs cfg ws im td vd B hW hB _ _ _ _ hok, ?_, fun s => rfl⟩
  intro batches s
  exact (train_epoch_spec im ws hW batches s).2.1

/-- Witness for C1 at the spec scenario: world size 2, 4 batches per epoch,
window 2, one epoch — `global_step` ends at 2. -/
theorem step_count_invariant_witness :
    (train { defaultConfig with epochs := 1, grad_accum_steps := 2 } 2 true
      (fun _ => [[1, 1], [1, 1], [1, 1], [1, 1]]) (fun _ => [])
      initState).state.global_step = 2 := by
  have h := (step_count_invariant
    { defaultConfig with epochs := 1, grad_accum_steps := 2 } 2 true
    (fun _ => [[1, 1], [1, 1], [1, 1], [1, 1]]) (fun _ => []) initState 4
    (by decide) (fun _ => rfl) (by decide)).1
  simpa using h

/-- C2 (code bug): for an unsupported optimizer or scheduler kind the source
builds the `NotImplementedError` and returns it as a value instead of
raising it, so construction does not fail with a raised error — the error
object is silently stored and flows on. -/
theorem unsupported_kind_returned_as_value :
    create_optimizer { defaultConfig with optimizer := "SGD" } 1 =
      OptimizerResult.notImplementedErrorValue "Optimizer: SGD not implemented!" ∧
    create_scheduler { defaultConfig with lr_scheduler := "StepLR" } 10 =
      .ok (.notImplementedErrorValue "lr_scheduler:StepLR not implemented!") ∧
    (mkTrainer { defaultConfig with optimizer := "SGD" } 0 2 1 10
      none (0, 0)).toOption.isSome = true :=
  ⟨rfl, rfl, rfl⟩

/-- C3 (counterexample): with `checkpoint_freq = 0` nothing aborts at
startup — the trainer is constructed, the first epoch runs to completion,
and the run then dies with a `ZeroDivisionError` raised by the cadence
modulo check, not with a startup `ConfigurationError`. -/
theorem config_not_validated_counterexample :
    (mkTrainer { defaultConfig with epochs := 1, checkpoint_freq := 0 } 0 1 1 10
      none (0, 0)).toOption.isSome = true ∧
    (train { defaultConfig with epochs := 1, checkpoint_freq := 0 } 1 true
      (fun _ => [[1]]) (fun _ => [[1]]) initState).err =
      some PyErr.zeroDivisionError ∧
    (train { defaultConfig with epochs := 1, checkpoint_freq := 0 } 1 true
      (fun _ => [[1]]) (fun _ => [[1]]) initState).state.epoch = 1 := by
  refine ⟨rfl, ?_, ?_⟩ <;>
    norm_num [train, train_loop, train_epoch, train_epoch_go, validate,
      validate_go, pymod, save_checkpoint, defaultConfig, initState]

/-- C3 (amended): the code performs no configuration validation: trainer
construction succeeds for arbitrary (including non-positive) checkpoint and
validation cadences and never raises a `ConfigurationError` (no such check
exists); a zero accumulation window does fail at startup, but with a
`ZeroDivisionError` from the scheduler's `len // grad_accum_steps`, and zero
cadences fail with a `ZeroDivisionError` only after the first epoch has
executed. -/
theorem config_not_validated (cf vf : Int) (L : Nat) :
    (mkTrainer { defaultConfig with checkpoint_freq := cf, validation_freq := vf }
      0 1 1 L none (0, 0)).toOption.isSome = true ∧
    mkTrainer { defaultConfig with grad_accum_steps := 0 } 0 1 1 10 none (0, 0) =
      .error PyErr.zeroDivisionError :=
  ⟨rfl, rfl⟩

/-- C4 (counterexample): the post-resume broadcast result does not overwrite
the rank's counters — with a loaded bundle (3, 30, ⊤) and broadcast payload
(7, 70) the in-memory state keeps the bundle's values, refuting the claim
that the broadcast result overwrites each rank's counters. -/
theorem resume_broadcast_discarded :
    load_checkpoint ⟨⟨3, 30, ⊤⟩⟩ (7, 70) = ⟨3, 30, ⊤⟩ ∧
    ¬ ((load_checkpoint ⟨⟨3, 30, ⊤⟩⟩ (7, 70)).epoch = 7 ∧
       (load_checkpoint ⟨⟨3, 30, ⊤⟩⟩ (7, 70)).global_step = 70) :=
  ⟨rfl, by decide⟩

/-- C4 (amended): after resume each rank's TrainerState equals the values of
the bundle that rank itself loaded, whatever the broadcast delivers — the
received `(epoch, global_step)` pair is written into a discarded temporary —
so ranks agree exactly when they load identical bundles; a bundle with
(3, 30) leaves the rank at (3, 30, best-from-bundle) before the next
epoch. -/
theorem resume_state_from_local_bundle (bundle : CheckpointStateM)
    (r₁ r₂ : Nat × Nat) (rank ws L : Nat) (lr : ℚ) :
    load_checkpoint bundle r₁ = bundle.trainer_state ∧
    load_checkpoint bundle r₁ = load_checkpoint bundle r₂ ∧
    mkTrainer { defaultConfig with resume_checkpoint := some "ckpt.pt" }
        rank ws lr L (some bundle) r₁ =
      .ok ⟨{ defaultConfig with resume_checkpoint := some "ckpt.pt" }, rank == 0,
        .adamW lr, .oneCycleLR (100 * Int.fdiv (L : Int) 1),
        bundle.trainer_state⟩ ∧
    load_checkpoint ⟨⟨3, 30, ⊤⟩⟩ (3, 30) = ⟨3, 30, ⊤⟩ :=
  ⟨rfl, rfl, rfl, rfl⟩

/-- C5: best-score dynamics: `best_loss` starts at the +infinity sentinel;
it never increases across a validation pass, is untouched by `train_epoch`,
and never increases over a whole run; on the coordinating rank a non-empty
validation pass strictly decreases it exactly when the mean validation loss
strictly beats the current best (hence with the ⊤ sentinel the first
completed validation always qualifies), and a `"best.pt"` save happens
exactly on those updates and on no other occasion. -/
theorem best_score_dynamics :
    initState.best_loss = ⊤ ∧
    (∀ (ws : Nat) (im : Bool) (batches : List (List ℚ)) (s : TrainerState),
      (validate ws im batches s).state.best_loss ≤ s.best_loss) ∧
    (∀ (im : Bool) (ws : Nat) (W : Int) (batches : List (List ℚ))
      (s : TrainerState),
      (train_epoch im ws W batches s).state.best_loss = s.best_loss) ∧
    (∀ (ws : Nat) (batches : List (List ℚ)) (s : TrainerState), batches ≠ [] →
      ((validate ws true batches s).state.best_loss < s.best_loss ↔
        ((valAvg ws batches : ℚ) : WithTop ℚ) < s.best_loss)) ∧
    (∀ (ws : Nat) (batches : List (List ℚ)) (s : TrainerState),
      ((validate ws true batches s).save = some "best.pt" ↔
        batches ≠ [] ∧ ((valAvg ws batches : ℚ) : WithTop ℚ) < s.best_loss)) ∧
    (∀ (ws : Nat) (batches : List (List ℚ)) (s : TrainerState),
      s.best_loss = ⊤ → batches ≠ [] →
      (validate ws true batches s).state.best_loss < s.best_loss) ∧
    (∀ (cfg : TrainingConfig) (ws : Nat) (im : Bool)
      (td vd : Nat → List (List ℚ)) (s0 : TrainerState),
      (train cfg ws im td vd s0).state.best_loss ≤ s0.best_loss) := by
  refine ⟨rfl, validate_best_mono, ?_, ?_, validate_save_iff, ?_, ?_⟩
  · intro im ws W batches s
    exact train_epoch_go_best im ws W batches 0 0 0 s [] []
  · intro ws batches s h
    exact validate_best_update ws h s
  · intro ws batches s hbest h
    rw [validate_best_update ws h s, hbest]
    exact WithTop.coe_lt_top _
  · intro cfg ws im td vd s0
    exact train_loop_best_mono cfg ws im td vd _ _ s0 []

/-- Witness for C5: the first completed validation (losses [0.4, 0.6] at
world size 2, best still at the ⊤ sentinel) strictly lowers `best_loss`. -/
theorem best_score_dynamics_witness :
    (validate 2 true [[2/5, 3/5]] initState).state.best_loss <
      initState.best_loss :=
  best_score_dynamics.2.2.2.2.2.1 2 [[2/5, 3/5]] initState rfl (by decide)

/-- C6: validation aggregation: on a non-empty validation partition the
computed mean validation loss equals the sum over batches of (collective
all-rank sum of that batch's losses divided by world size exactly once),
divided by the number of validation batches; per-rank batch losses
[0.4, 0.6] at world size 2 reduce to sum 1 and mean 0.5. -/
theorem validation_aggregation :
    (∀ (ws : Nat) (im : Bool) (batches : List (List ℚ)) (s : TrainerState),
      batches ≠ [] →
      (validate ws im batches s).avg_loss =
        some ((batches.map (fun b => b.sum / (ws : ℚ))).sum /
          (batches.length : ℚ))) ∧
    ([(2 : ℚ)/5, 3/5].sum = 1 ∧
      (validate 2 true [[(2 : ℚ)/5, 3/5]] initState).avg_loss = some (1/2)) := by
  refine ⟨?_, by norm_num, by norm_num [validate, validate_go, initState]⟩
  intro ws im batches s h
  rw [validate_eq_of_ne_nil ws im h s]
  cases im
  · rfl
  · by_cases hlt : ((valAvg ws batches : ℚ) : WithTop ℚ) < s.best_loss
    · rw [if_pos hlt]; rfl
    · rw [if_neg hlt]; rfl

/-- Witness for C6 at the spec scenario (per-rank losses [0.4, 0.6], world
size 2). -/
theorem validation_aggregation_witness :
    (validate 2 true [[(2 : ℚ)/5, 3/5]] initState).avg_loss =
      some (([[(2 : ℚ)/5, 3/5]].map (fun b => b.sum / ((2 : Nat) : ℚ))).sum /
        (([[(2 : ℚ)/5, 3/5]] : List (List ℚ)).length : ℚ)) :=
  validation_aggregation.1 2 true [[(2 : ℚ)/5, 3/5]] initState (by decide)

/-- C7: periodic checkpoint cadence and naming: over a completed
coordinating-rank run with positive cadence, the non-best save events are
exactly one `checkpoint_<e, zero-padded 4 digits>.pt` write after each
completed 1-based epoch `e` with `e % checkpoint_freq == 0`, independent of
and in addition to any `"best"`-tag saves; on every other rank
`save_checkpoint` is a no-op and a run writes nothing; with
`checkpoint_freq = 2`, `epochs = 5` the run writes `checkpoint_0002.pt` and
`checkpoint_0004.pt` only (plus an independent best-tag save). -/
theorem periodic_checkpoint_cadence (cfg : TrainingConfig) (ws : Nat)
    (td vd : Nat → List (List ℚ)) (s0 : TrainerState)
    (hcf : 1 ≤ cfg.checkpoint_freq)
    (hok : (train cfg ws true td vd s0).err = none) :
    (train cfg ws true td vd s0).events.filter (fun ev => !ev.1) =
      periodicTags cfg.checkpoint_freq.toNat (cfg.epochs - s0.epoch) s0.epoch ∧
    (∀ (s : TrainerState) (best : Bool), save_checkpoint false s best = none) ∧
    (∀ (td' vd' : Nat → List (List ℚ)) (s0' : TrainerState),
      (train cfg ws false td' vd' s0').events = []) ∧
    (train { defaultConfig with epochs := 5, checkpoint_freq := 2 } 1 true
      (fun _ => []) (fun _ => [[1]]) initState).events =
      [(true, "best.pt"), (false, "checkpoint_0002.pt"),
        (false, "checkpoint_0004.pt")] := by
  refine ⟨?_, fun s best => rfl, ?_, ?_⟩
  · have h := train_loop_periodic cfg ws td vd hcf (cfg.epochs - s0.epoch)
      s0.epoch s0 [] rfl hok
    simpa using h
  · intro td' vd' s0'
    exact train_loop_events_nonmain cfg ws td' vd' _ _ s0' []
  · norm_num [train, train_loop, train_epoch, train_epoch_go, validate,
      validate_go, pymod, save_checkpoint, periodicName, format04d,
      defaultConfig, initState]
    decide

/-- Witness for C7 at the spec scenario: `checkpoint_freq = 2`,
`epochs = 5`. -/
theorem periodic_checkpoint_cadence_witness :
    (train { defaultConfig with epochs := 5, checkpoint_freq := 2 } 1 true
      (fun _ => []) (fun _ => [[1]]) initState).events.filter (fun ev => !ev.1) =
      periodicTags 2 5 0 :=
  (periodic_checkpoint_cadence
    { defaultConfig with epochs := 5, checkpoint_freq := 2 } 1
    (fun _ => []) (fun _ => [[1]]) initState (by decide) (by decide)).1

/-- C8: epoch monotonicity: a completed `train_epoch` call increments
`state.epoch` by exactly 1; with zero batches the epoch completes as a
no-op — epoch incremented, no optimizer step, no exception; `epoch` never
decreases across `train_epoch`, `validate`, or a whole run (only an explicit
checkpoint load replaces it). -/
theorem epoch_monotonicity (im : Bool) (ws : Nat) (W : Int)
    (batches : List (List ℚ)) (s : TrainerState) :
    ((train_epoch im ws W batches s).err = none →
      (train_epoch im ws W batches s).state.epoch = s.epoch + 1) ∧
    train_epoch im ws W [] s = ⟨{ s with epoch := s.epoch + 1 }, [], [], none⟩ ∧
    s.epoch ≤ (train_epoch im ws W batches s).state.epoch ∧
    (∀ vb : List (List ℚ), (validate ws im vb s).state.epoch = s.epoch) ∧
    (∀ (cfg : TrainingConfig) (td vd : Nat → List (List ℚ)),
      s.epoch ≤ (train cfg ws im td vd s).state.epoch) := by
  refine ⟨?_, rfl, ?_, ?_, ?_⟩
  · exact train_epoch_go_epoch_of_ok im ws W batches 0 0 0 s [] []
  · exact train_epoch_go_epoch_mono im ws W batches 0 0 0 s [] []
  · intro vb
    exact validate_epoch ws im vb s
  · intro cfg td vd
    exact train_loop_epoch_mono cfg ws im td vd _ _ s []

/-- Witness for C8: one completed single-batch epoch raises `epoch` from 0
to 1. -/
theorem epoch_monotonicity_witness :
    (train_epoch true 1 1 [[1]] initState).state.epoch = initState.epoch + 1 :=
  (epoch_monotonicity true 1 1 [[1]] initState).1 (by decide)

/-- C9 (counterexample): with identical configuration, initial state and
per-rank loss sequence (losses [0.4, 0.6], world size 2), a validation pass
on the coordinating rank lowers `best_loss` to 1/2 while on a
non-coordinating rank it stays ⊤ — TrainerState does not evolve identically
across ranks without synchronization. -/
theorem best_score_rank_divergence :
    (validate 2 true [[2/5, 3/5]] initState).state.best_loss =
      ((1/2 : ℚ) : WithTop ℚ) ∧
    (validate 2 false [[2/5, 3/5]] initState).state.best_loss = ⊤ ∧
    (validate 2 true [[2/5, 3/5]] initState).state ≠
      (validate 2 false [[2/5, 3/5]] initState).state := by
  refine ⟨?_, ?_, ?_⟩ <;>
    norm_num [validate, validate_go, initState, save_checkpoint,
      TrainerState.mk.injEq]

/-- C9 (amended): outside the resume broadcast, `epoch` and `global_step`
evolve identically on every rank — `train_epoch`'s state transition, step
positions and exception behaviour do not depend on the rank, and `validate`
preserves both counters on every rank — but `best_loss` is updated only on
the coordinating rank: on a non-coordinating rank `validate` leaves the
whole TrainerState unchanged and never saves, so `best_loss` diverges from
rank 0 after a qualifying validation pass. -/
theorem control_plane_rank_independence (im₁ im₂ : Bool) (ws : Nat) (W : Int)
    (batches vb : List (List ℚ)) (s : TrainerState) :
    (train_epoch im₁ ws W batches s).state =
      (train_epoch im₂ ws W batches s).state ∧
    (train_epoch im₁ ws W batches s).steps =
      (train_epoch im₂ ws W batches s).steps ∧
    (train_epoch im₁ ws W batches s).err =
      (train_epoch im₂ ws W batches s).err ∧
    (∀ im : Bool, (validate ws im vb s).state.epoch = s.epoch ∧
      (validate ws im vb s).state.global_step = s.global_step) ∧
    (validate ws false vb s).state = s ∧
    (validate ws false vb s).save = none := by
  obtain ⟨h1, h2, h3⟩ :=
    train_epoch_go_rank_indep im₁ im₂ ws W batches 0 0 0 s [] [] []
  exact ⟨h1, h2, h3,
    fun im => ⟨validate_epoch ws im vb s, validate_gs ws im vb s⟩,
    (validate_nonmain ws vb s).1, (validate_nonmain ws vb s).2⟩

/-- C10: frame property of `validate`: it never changes `epoch` or
`global_step` — `best_loss` is the only TrainerState field it can change —
and on an empty validation partition it returns immediately with the state
untouched, no save and no `avg_loss` (so no reduction, comparison, or
division by the zero batch count happens). -/
theorem validate_frame_property (ws : Nat) (im : Bool)
    (batches : List (List ℚ)) (s : TrainerState) :
    (validate ws im batches s).state.epoch = s.epoch ∧
    (validate ws im batches s).state.global_step = s.global_step ∧
    (validate ws im batches s).state =
      { s with best_loss := (validate ws im batches s).state.best_loss } ∧
    validate ws im [] s = ⟨s, none, none⟩ :=
  ⟨validate_epoch ws im batches s, validate_gs ws im batches s,
    validate_frame ws im batches s, rfl⟩

end TTS
